import Mathlib

/-!
# VideoEditorPro backend — formal model

A shallow embedding of the two service variants of the VideoEditorPro
video-composition backend:

* `src/unnamed/part_000` — the variant with an in-memory job table
  (`jobs = new Map()`), an asynchronous `/api/process` accept path,
  `/api/jobs/:jobId` status queries, `/api/download/:jobId` downloads and an
  hourly retention sweep;
* `src/server.js` — the variant without a job table, whose `/process`
  handler answers only from inside the engine's `on('end')` / `on('error')`
  callbacks and whose `/download/:fileId` handler checks only file existence.

JavaScript objects with optional fields are modelled as structures of
`Option` fields; the `jobs` Map as an association list; `Date.now()`
timestamps as `Nat` parameters; engine (fluent-ffmpeg) callbacks as explicit
event lists consumed in order.  Progress percents are modelled as `Int`
(already rounded): `Math.round(progress.percent || 0)` becomes
`Option.getD · 0`, which preserves the source's lack of clamping in either
direction.
-/

namespace VideoEditorPro

/-- Job status strings stored in the `jobs` map of `part_000`:
`'processing' | 'completed' | 'failed'`. -/
inductive Status where
  | processing
  | completed
  | failed
deriving DecidableEq, Repr

/-- A job record as stored in the `jobs` map of `part_000`.  Each field is
optional because the source stores plain object literals whose field sets
differ per transition (`jobs.set` at lines 84, 93 and 102 of part_000). -/
structure Job where
  status : Status
  progress : Option Int := none
  startTime : Option Nat := none
  outputUrl : Option String := none
  completedTime : Option Nat := none
  error : Option String := none
  failedTime : Option Nat := none
deriving DecidableEq, Repr

/-- The in-memory job table `const jobs = new Map()` of part_000, modelled as
an association list from jobId to record. -/
abbrev JobTable := List (String × Job)

/-- `jobs.get(k)`. -/
def jtGet (t : JobTable) (k : String) : Option Job :=
  match t with
  | [] => none
  | (k2, j) :: rest => if k2 = k then some j else jtGet rest k

/-- `jobs.set(k, j)` — replaces the existing binding or appends a new one. -/
def jtSet (t : JobTable) (k : String) (j : Job) : JobTable :=
  match t with
  | [] => [(k, j)]
  | (k2, j2) :: rest => if k2 = k then (k, j) :: rest else (k2, j2) :: jtSet rest k j

/-- `jobs.delete(k)` — removes the binding for `k`, if present. -/
def jtDelete (t : JobTable) (k : String) : JobTable :=
  match t with
  | [] => []
  | (k2, j) :: rest => if k2 = k then rest else (k2, j) :: jtDelete rest k

theorem jtGet_jtSet_self (t : JobTable) (k : String) (j : Job) :
    jtGet (jtSet t k j) k = some j := by
  induction t with
  | nil => simp [jtGet, jtSet]
  | cons e rest ih =>
    obtain ⟨k2, j2⟩ := e
    by_cases h : k2 = k <;> simp [jtGet, jtSet, h, ih]

/-- The record inserted by `/api/process` on accept (part_000 lines 84-88):
`{status: 'processing', progress: 0, startTime: now}`. -/
def initJob (now : Nat) : Job :=
  { status := .processing, progress := some 0, startTime := some now }

/-- The job table containing exactly the freshly created job. -/
def initTable (k : String) (now : Nat) : JobTable :=
  [(k, initJob now)]

/-! ## Engine events consumed by the orchestrator (part_000)

fluent-ffmpeg delivers `progress` events followed by exactly one settlement
of the `processVideos` promise (either `.then` or `.catch` runs, at most
once). -/

/-- An event delivered for a given job: a `progress` callback firing
(carrying `progress.percent`, possibly absent), or the promise settling
(completion with a `Date.now()` timestamp, or failure with the error
message and timestamp). -/
inductive JobEvent where
  | progressEv (percent : Option Int)
  | completeEv (time : Nat)
  | failEv (msg : String) (time : Nat)
deriving DecidableEq, Repr

/-- The `on('progress')` handler (part_000 lines 204-211):
`job.progress = Math.round(progress.percent || 0)` when the job is still in
the table; the status and all other fields are untouched. -/
def onProgress (t : JobTable) (k : String) (percent : Option Int) : JobTable :=
  match jtGet t k with
  | none => t
  | some job => jtSet t k { job with progress := some (percent.getD 0) }

/-- The `.then` handler (part_000 lines 92-99): replaces the record wholesale
with `{status: 'completed', progress: 100, outputUrl, completedTime}`. -/
def onCompleted (t : JobTable) (k : String) (time : Nat) : JobTable :=
  jtSet t k
    { status := .completed, progress := some 100,
      outputUrl := some ("/output/" ++ k ++ ".mp4"), completedTime := some time }

/-- The `.catch` handler (part_000 lines 100-107): replaces the record
wholesale with `{status: 'failed', error, failedTime}`. -/
def onFailed (t : JobTable) (k : String) (msg : String) (time : Nat) : JobTable :=
  jtSet t k { status := .failed, error := some msg, failedTime := some time }

/-- Dispatch one delivered event to the corresponding handler. -/
def applyEvent (t : JobTable) (k : String) : JobEvent → JobTable
  | .progressEv p => onProgress t k p
  | .completeEv tm => onCompleted t k tm
  | .failEv m tm => onFailed t k m tm

/-- Consume a list of delivered events in order. -/
def runTrace (t : JobTable) (k : String) (evs : List JobEvent) : JobTable :=
  evs.foldl (fun acc e => applyEvent acc k e) t

/-- Whether an event is a promise settlement (terminal). -/
def isTerminalEv : JobEvent → Bool
  | .progressEv _ => false
  | .completeEv _ => true
  | .failEv _ _ => true

/-- The status a `/api/jobs/:jobId` query observes. -/
def statusAt (t : JobTable) (k : String) : Option Status :=
  (jtGet t k).map (·.status)

/-- The progress a `/api/jobs/:jobId` query observes. -/
def progressAt (t : JobTable) (k : String) : Option Int :=
  (jtGet t k).bind (·.progress)

/-! ## The composition parameter builders

Both variants translate the request's `layout` into an ffmpeg
`filter_complex` graph.  The graph is modelled structurally: the scaling
applied to each input, the stacking/concatenation of the two video streams,
and the audio-mix instruction.  (`setsar=1` and the fixed encoding options
`libx264`/`aac`/`-preset fast`/`-crf 23` carry no per-request information
and are omitted from the structure.) -/

/-- One dimension of an ffmpeg `scale=` argument: an absolute pixel count, or
an expression relative to that input's own width/height (`iw`, `ih`,
`iw/2`, `ih/2`). -/
inductive Dim where
  | px (n : Nat)
  | halfInW
  | fullInW
  | halfInH
  | fullInH
deriving DecidableEq, Repr

/-- A `scale=w:h` instruction for one input. -/
structure ScaleSpec where
  w : Dim
  h : Dim
deriving DecidableEq, Repr

/-- The video half of the filter graph: horizontal stack, vertical stack
(each after scaling its two inputs), or timeline concatenation. -/
inductive VideoGraph where
  | hstack (s1 s2 : ScaleSpec)
  | vstack (s1 s2 : ScaleSpec)
  | concatVideo
deriving DecidableEq, Repr

/-- The audio half of the filter graph: `amix=inputs=2:duration=longest`,
`amix=inputs=2:duration=shortest`, or concatenation in timeline order. -/
inductive AudioGraph where
  | amixLongest
  | amixShortest
  | concatAudio
deriving DecidableEq, Repr

/-- The engine-facing graph description built from a request. -/
structure GraphSpec where
  video : VideoGraph
  audio : AudioGraph
deriving DecidableEq, Repr

/-- The opaque per-input override blob `settings = {video1, video2}` that
part_000 destructures (`settings?.video1 || {}`) and then never uses. -/
structure Settings where
  video1 : Option String := none
  video2 : Option String := none
deriving DecidableEq, Repr

/-- `layout?.toLowerCase()` for the ASCII layout strings involved. -/
def jsToLower (s : String) : String := ⟨s.data.map Char.toLower⟩

/-- The `GraphSpec` produced for the `default` switch branch of part_000 and
the `else` branch of server.js: sequential concatenation
(`[0:v][0:a][1:v][1:a]concat=n=2:v=1:a=1`), no scaling, no audio mixing. -/
def sequentialSpec : GraphSpec :=
  { video := .concatVideo, audio := .concatAudio }

/-- The filter graph built by `processVideos` in part_000 (lines 149-181):
`switch (layout?.toLowerCase())` with cases `'side by side'` and
`'stacked'`, every other value (including an absent layout) falling to the
sequential default.  The `settings` argument is destructured by the source
but never read when building the filter. -/
def processVideosFilter (layout : Option String) (settings : Option Settings) : GraphSpec :=
  if (layout.map jsToLower).getD "" = "side by side" then
    { video := .hstack ⟨.px 960, .px 1080⟩ ⟨.px 960, .px 1080⟩, audio := .amixLongest }
  else if (layout.map jsToLower).getD "" = "stacked" then
    { video := .vstack ⟨.px 1920, .px 540⟩ ⟨.px 1920, .px 540⟩, audio := .amixLongest }
  else
    sequentialSpec

/-- The filter graph built by the `/process` handler in server.js
(lines 97-155): strict comparisons `layout === 'sidebyside'` and
`layout === 'stacked'`, every other value falling to the sequential branch.
`audioOption` is destructured with default `'mixed'` (line 75) but never
read afterwards; the mix is hard-coded as `duration=shortest`. -/
def sjBuildFilter (layout : Option String) (audioOption : Option String) : GraphSpec :=
  if layout = some "sidebyside" then
    { video := .hstack ⟨.halfInW, .fullInH⟩ ⟨.halfInW, .fullInH⟩, audio := .amixShortest }
  else if layout = some "stacked" then
    { video := .vstack ⟨.fullInW, .halfInH⟩ ⟨.fullInW, .halfInH⟩, audio := .amixShortest }
  else
    sequentialSpec

/-! ### Frame semantics of the built graphs

To settle claims about output dimensions we evaluate the scale/stack
instructions on concrete input dimensions, following the ffmpeg semantics
of `scale`, `hstack` (equal heights required, widths add) and `vstack`
(equal widths required, heights add). -/

/-- Width×height of a video frame, in pixels. -/
structure Dims where
  w : Nat
  h : Nat
deriving DecidableEq, Repr

/-- Evaluate one `scale=` dimension against the input's own dimensions. -/
def evalDim (input : Dims) : Dim → Nat
  | .px n => n
  | .halfInW => input.w / 2
  | .fullInW => input.w
  | .halfInH => input.h / 2
  | .fullInH => input.h

/-- The frame produced by scaling `input` with `s`. -/
def evalScale (s : ScaleSpec) (input : Dims) : Dims :=
  ⟨evalDim input s.w, evalDim input s.h⟩

/-- The dimensions of the composed frame for a stacking graph applied to two
inputs (`none` when the stack's compatibility requirement fails, and for the
sequential graph, which produces no spatially composed frame). -/
def composedDims (g : GraphSpec) (in1 in2 : Dims) : Option Dims :=
  match g.video with
  | .hstack s1 s2 =>
    let d1 := evalScale s1 in1
    let d2 := evalScale s2 in2
    if d1.h = d2.h then some ⟨d1.w + d2.w, d1.h⟩ else none
  | .vstack s1 s2 =>
    let d1 := evalScale s1 in1
    let d2 := evalScale s2 in2
    if d1.w = d2.w then some ⟨d1.w, d1.h + d2.h⟩ else none
  | .concatVideo => none

/-- The fixed target frame of part_000's stacking layouts, evident from its
constants: `scale=960:1080` + `hstack` and `scale=1920:540` + `vstack` both
compose to 1920×1080. -/
def targetDims : Dims := ⟨1920, 1080⟩

/-! ## The `/api/process` accept path (part_000, lines 65-114) -/

/-- JavaScript truthiness of an optional string: `undefined` and `''` are
falsy, every other string truthy. -/
def jsTruthyStr (s : Option String) : Bool :=
  match s with
  | none => false
  | some v => v ≠ ""

/-- The body of a `/api/process` request in part_000:
`const {video1Id, video2Id, layout, settings} = req.body`. -/
structure ProcessRequest where
  video1Id : Option String := none
  video2Id : Option String := none
  layout : Option String := none
  settings : Option Settings := none
deriving DecidableEq, Repr

/-- The synchronous HTTP response of `/api/process`. -/
inductive CreateResult where
  | badRequest (err : String)
  | accepted (jobId : String)
deriving DecidableEq, Repr

/-- The synchronous part of the `/api/process` handler: the missing-id guard
(line 68), the `jobs.set` insertion (lines 84-88), and the immediate 200
response `{success: true, jobId, message: 'Processing started'}`
(lines 109-113), which runs before the engine settles.  Returns the
response, the job table after the handler returns, and whether
`processVideos` was launched.  `freshId` is the `uuidv4()` jobId and `now`
the `Date.now()` at creation. -/
def apiProcess (t : JobTable) (req : ProcessRequest) (freshId : String) (now : Nat) :
    CreateResult × JobTable × Bool :=
  if !jsTruthyStr req.video1Id || !jsTruthyStr req.video2Id then
    (.badRequest "Missing video IDs", t, false)
  else
    (.accepted freshId, jtSet t freshId (initJob now), true)

/-- The settlement of the `processVideos` promise for a job: `.then` runs on
engine success, `.catch` on engine failure, each with its `Date.now()`. -/
inductive EngineOutcome where
  | completed (time : Nat)
  | failed (msg : String) (time : Nat)
deriving DecidableEq, Repr

/-- Apply a settlement to the job table via the part_000 handlers. -/
def applyOutcome (t : JobTable) (k : String) : EngineOutcome → JobTable
  | .completed tm => onCompleted t k tm
  | .failed m tm => onFailed t k m tm

/-- A whole `/api/process` interaction: the synchronous response paired with
the job table after the engine later settles (the settlement handlers run
only when the request was accepted and the composition launched). -/
def apiProcessRun (t : JobTable) (req : ProcessRequest) (freshId : String) (now : Nat)
    (outcome : EngineOutcome) : CreateResult × JobTable :=
  match apiProcess t req freshId now with
  | (.accepted j, t2, _) => (.accepted j, applyOutcome t2 j outcome)
  | (r, t2, _) => (r, t2)

/-! ## The `/process` path of server.js (lines 73-197)

This variant keeps no job table.  Its missing-input and file-existence
guards answer synchronously, but for a launched composition the HTTP
response is emitted *inside* `on('end')` / `on('error')`: the caller's
response is a function of the engine outcome. -/

/-- The body of a `/process` request in server.js:
`const {video1, video2, layout, audioOption = 'mixed'} = req.body`. -/
structure SJRequest where
  video1 : Option String := none
  video2 : Option String := none
  layout : Option String := none
  audioOption : Option String := none
deriving DecidableEq, Repr

/-- The HTTP response of server.js's `/process`. -/
inductive SJResponse where
  | badRequest (err : String)
  | notFound (err : String)
  | ok (outputId : String)
  | serverError (err : String) (details : String)
deriving DecidableEq, Repr

/-- The `/process` handler of server.js.  `fsHas1`/`fsHas2` are the
`fs.existsSync` results for the two resolved input paths (line 84);
`outputId` is the generated `${uuidv4()}.mp4`; the final response for a
launched composition depends on `outcome` because `res.json`/`res.status(500)`
run inside `on('end')`/`on('error')` (lines 165-190).  The second component
records whether the engine was launched. -/
def sjProcess (fsHas1 fsHas2 : Bool) (req : SJRequest) (outputId : String)
    (outcome : EngineOutcome) : SJResponse × Bool :=
  if !jsTruthyStr req.video1 || !jsTruthyStr req.video2 then
    (.badRequest "Both video1 and video2 are required", false)
  else if !fsHas1 || !fsHas2 then
    (.notFound "One or both videos not found", false)
  else
    match outcome with
    | .completed _ => (.ok outputId, true)
    | .failed msg _ => (.serverError "Processing failed" msg, true)

/-! ## Filesystem model

Files live in the flat directories `uploads` and `output`.  `existsSync`
never throws; `statSync` and `unlinkSync` throw on a missing path, and each
file additionally carries fault flags modelling a transient filesystem error
(or the file vanishing between `readdirSync` and the operation) raised by
`statSync`/`unlinkSync` on it. -/

/-- One file on disk: its directory, name, `mtimeMs`, and fault flags. -/
structure FSFile where
  dir : String
  name : String
  mtimeMs : Nat
  statErr : Bool := false
  unlinkErr : Bool := false
deriving DecidableEq, Repr

/-- The filesystem: a flat list of files. -/
abbrev FS := List FSFile

/-- Find the entry at `dir/name`. -/
def fsLookup (fs : FS) (dir name : String) : Option FSFile :=
  fs.find? (fun f => f.dir == dir && f.name == name)

/-- `fs.existsSync(path.join(dir, name))` — never throws. -/
def fsExists (fs : FS) (dir name : String) : Bool :=
  (fsLookup fs dir name).isSome

/-- `fs.statSync` — throws (`Except.error`) when the path is missing or the
file's transient stat fault fires. -/
def fsStat (fs : FS) (dir name : String) : Except String FSFile :=
  match fsLookup fs dir name with
  | none => .error "ENOENT"
  | some f => if f.statErr then .error "EIO" else .ok f

/-- `fs.unlinkSync` — throws when the path is missing or the file's
transient unlink fault fires; otherwise removes the entry. -/
def fsUnlink (fs : FS) (dir name : String) : Except String FS :=
  match fsLookup fs dir name with
  | none => .error "ENOENT"
  | some f =>
    if f.unlinkErr then .error "EIO"
    else .ok (fs.filter (fun g => !(g.dir == dir && g.name == name)))

/-- `fs.readdirSync(dir)` — the names currently present under `dir`. -/
def readdir (fs : FS) (dir : String) : List String :=
  (fs.filter (fun f => f.dir == dir)).map (·.name)

/-! ## Download handlers -/

/-- The outcome of a download request. -/
inductive DownloadResp where
  | notReady
  | fileNotFound
  | streamFile (dir name : String)
deriving DecidableEq, Repr

/-- part_000's `/api/download/:jobId` (lines 129-144): 404 `'Video not
ready'` unless the job exists with status `'completed'`; 404 `'File not
found'` unless `output/<jobId>.mp4` exists; otherwise `res.download`. -/
def apiDownload (t : JobTable) (fs : FS) (jobId : String) : DownloadResp :=
  match jtGet t jobId with
  | none => .notReady
  | some job =>
    if job.status ≠ .completed then .notReady
    else if fsExists fs "output" (jobId ++ ".mp4") then .streamFile "output" (jobId ++ ".mp4")
    else .fileNotFound

/-- server.js's `/download/:fileId` (lines 200-235): the variant maintains no
job table; the handler checks only `fs.existsSync` on `output/<fileId>` and
streams the file whenever it exists. -/
def sjDownload (fs : FS) (fileId : String) : DownloadResp :=
  if fsExists fs "output" fileId then .streamFile "output" fileId
  else .fileNotFound

/-! ## The hourly retention sweep (part_000, lines 236-269)

Phase 1 walks the job-table entries: any job whose reference timestamp
(`completedTime || failedTime || startTime`) is older than `maxAge` is
deleted, and its `output/<jobId>.mp4` artifact unlinked after an
`existsSync` pre-check — the `unlinkSync` itself is *not* wrapped in
try/catch.  Phase 2 walks `['uploads', 'output']`, calling the unguarded
`statSync` and `unlinkSync` on every listed file older than `maxAge`.  An
exception from any of these propagates out of the `setInterval` callback,
aborting the rest of the sweep; the model records this as `aborted`,
carrying the state at the throw.  (The `existsSync(dir)` guard on each
directory is modelled as true: both directories are created before any
sweep that has work to do.) -/

/-- `a || b` on optional `Date.now()` timestamps: JS `0` is falsy. -/
def jsOrTime (a b : Option Nat) : Option Nat :=
  if a.getD 0 ≠ 0 then a else b

/-- `job.completedTime || job.failedTime || job.startTime` (line 242). -/
def timeRef (j : Job) : Option Nat :=
  jsOrTime j.completedTime (jsOrTime j.failedTime j.startTime)

/-- The result of one sweep: ran to completion, or aborted by an uncaught
filesystem exception (carrying the error and the state at the throw). -/
inductive SweepOutcome where
  | ok (jt : JobTable) (fs : FS)
  | aborted (err : String) (jt : JobTable) (fs : FS)
deriving DecidableEq, Repr

/-- One iteration of `jobs.forEach` (lines 241-252).  Returns the updated
table and filesystem, and the uncaught exception if one was thrown.  When
no reference timestamp is present the age is `NaN` and `NaN > maxAge` is
false, so the job is kept. -/
def sweepJob (now maxAge : Nat) (jt : JobTable) (fs : FS) (k : String) (j : Job) :
    JobTable × FS × Option String :=
  match timeRef j with
  | none => (jt, fs, none)
  | some tr =>
    if (maxAge : Int) < (now : Int) - (tr : Int) then
      if fsExists fs "output" (k ++ ".mp4") then
        match fsUnlink fs "output" (k ++ ".mp4") with
        | .ok fs2 => (jtDelete jt k, fs2, none)
        | .error e => (jtDelete jt k, fs, some e)
      else (jtDelete jt k, fs, none)
    else (jt, fs, none)

/-- Phase 1: fold `sweepJob` over the entries the `forEach` visits,
stopping at the first uncaught exception. -/
def sweepJobsGo (now maxAge : Nat) : List (String × Job) → JobTable → FS → SweepOutcome
  | [], jt, fs => .ok jt fs
  | (k, j) :: rest, jt, fs =>
    match sweepJob now maxAge jt fs k j with
    | (jt2, fs2, none) => sweepJobsGo now maxAge rest jt2 fs2
    | (jt2, fs2, some e) => .aborted e jt2 fs2

/-- One iteration of the directory scan (lines 257-266): the unguarded
`statSync`, then the unguarded `unlinkSync` when the file is old. -/
def sweepFile (now maxAge : Nat) (fs : FS) (dir name : String) : FS × Option String :=
  match fsStat fs dir name with
  | .error e => (fs, some e)
  | .ok info =>
    if (maxAge : Int) < (now : Int) - (info.mtimeMs : Int) then
      match fsUnlink fs dir name with
      | .ok fs2 => (fs2, none)
      | .error e => (fs, some e)
    else (fs, none)

/-- Scan the names listed for one directory, stopping at the first uncaught
exception. -/
def sweepDirGo (now maxAge : Nat) (dir : String) : List String → FS → FS × Option String
  | [], fs => (fs, none)
  | n :: rest, fs =>
    match sweepFile now maxAge fs dir n with
    | (fs2, none) => sweepDirGo now maxAge dir rest fs2
    | (fs2, some e) => (fs2, some e)

/-- Phase 2: `['uploads', 'output'].forEach`, each directory listed by
`readdirSync` at the moment its scan starts. -/
def sweepDirsGo (now maxAge : Nat) : List String → FS → FS × Option String
  | [], fs => (fs, none)
  | d :: rest, fs =>
    match sweepDirGo now maxAge d (readdir fs d) fs with
    | (fs2, none) => sweepDirsGo now maxAge rest fs2
    | (fs2, some e) => (fs2, some e)

/-- The whole `setInterval` sweep body. -/
def sweep (now maxAge : Nat) (jt : JobTable) (fs : FS) : SweepOutcome :=
  match sweepJobsGo now maxAge jt jt fs with
  | .aborted e jt2 fs2 => .aborted e jt2 fs2
  | .ok jt2 fs2 =>
    match sweepDirsGo now maxAge ["uploads", "output"] fs2 with
    | (fs3, none) => .ok jt2 fs3
    | (fs3, some e) => .aborted e jt2 fs3

/-- The retention window constant of part_000 (line 238):
`24 * 60 * 60 * 1000` milliseconds. -/
def retentionMaxAge : Nat := 24 * 60 * 60 * 1000

/-! ## Observed progress sequences (for the progress claims) -/

/-- The trace in which the engine delivers exactly the percents `ps`, in
order, each present (`progress.percent` defined). -/
def progressTrace (ps : List Int) : List JobEvent :=
  ps.map (fun p => .progressEv (some p))

/-- The progress values read after each event of a trace (with `-1` marking
a record without a progress field, which progress events never produce). -/
def obsGo (t : JobTable) (k : String) : List JobEvent → List Int
  | [] => []
  | e :: evs =>
    (progressAt (applyEvent t k e) k).getD (-1) :: obsGo (applyEvent t k e) k evs

/-- The progress values a status poller observes for a fresh job: right
after creation and then after each delivered event. -/
def observedProgress (k : String) (now : Nat) (evs : List JobEvent) : List Int :=
  (progressAt (initTable k now) k).getD (-1) :: obsGo (initTable k now) k evs

/-- `l` is non-decreasing. -/
def nonDecreasing : List Int → Bool
  | [] => true
  | [_] => true
  | a :: b :: rest => a ≤ b && nonDecreasing (b :: rest)

/-- Every element of `l` is an integer percent within `[0, 100]`. -/
def boundedBy100 (l : List Int) : Bool :=
  l.all (fun p => 0 ≤ p && p ≤ 100)

/-! ## Job-record invariant (for the lifecycle claims) -/

/-- Exactly the state/field coupling of the spec: `processing` with neither
`outputUrl` nor `error`; `completed` with `outputUrl` and no `error`;
`failed` with `error` and no `outputUrl`. -/
def jobInvB (j : Job) : Bool :=
  match j.status with
  | .processing => j.outputUrl.isNone && j.error.isNone
  | .completed => j.outputUrl.isSome && j.error.isNone
  | .failed => j.error.isSome && j.outputUrl.isNone

/-- The invariant holds for the record stored at `k` (and a record is
stored there). -/
def invAt (t : JobTable) (k : String) : Bool :=
  match jtGet t k with
  | some j => jobInvB j
  | none => false

/-! ## Lemmas about event consumption -/

theorem statusAt_onProgress (t : JobTable) (k : String) (p : Option Int) :
    statusAt (onProgress t k p) k = statusAt t k := by
  unfold onProgress
  cases h : jtGet t k with
  | none => rfl
  | some job => simp [statusAt, jtGet_jtSet_self, h]

theorem invAt_onProgress (t : JobTable) (k : String) (p : Option Int)
    (h : invAt t k = true) : invAt (onProgress t k p) k = true := by
  unfold invAt at h ⊢
  unfold onProgress
  cases hg : jtGet t k with
  | none => simp [hg] at h
  | some job =>
    rw [hg] at h
    simp only [jtGet_jtSet_self]
    cases hs : job.status <;> simp [jobInvB, hs] at h ⊢ <;> exact h

theorem invAt_applyEvent (t : JobTable) (k : String) (e : JobEvent)
    (h : invAt t k = true) : invAt (applyEvent t k e) k = true := by
  cases e with
  | progressEv p => exact invAt_onProgress t k p h
  | completeEv tm => simp [applyEvent, onCompleted, invAt, jtGet_jtSet_self, jobInvB]
  | failEv m tm => simp [applyEvent, onFailed, invAt, jtGet_jtSet_self, jobInvB]

theorem invAt_runTrace (evs : List JobEvent) (t : JobTable) (k : String)
    (h : invAt t k = true) : invAt (runTrace t k evs) k = true := by
  induction evs generalizing t with
  | nil => exact h
  | cons e rest ih => exact ih (applyEvent t k e) (invAt_applyEvent t k e h)

/-- A trace without settlements leaves the observed status unchanged. -/
theorem statusAt_runTrace_noTerminal (evs : List JobEvent) (t : JobTable) (k : String)
    (h : evs.countP (fun e => isTerminalEv e) = 0) :
    statusAt (runTrace t k evs) k = statusAt t k := by
  induction evs generalizing t with
  | nil => rfl
  | cons e rest ih =>
    rw [List.countP_cons] at h
    cases e with
    | progressEv p =>
      have h2 : rest.countP (fun e => isTerminalEv e) = 0 := by
        simpa [isTerminalEv] using h
      calc statusAt (runTrace t k (JobEvent.progressEv p :: rest)) k
          = statusAt (runTrace (onProgress t k p) k rest) k := rfl
        _ = statusAt (onProgress t k p) k := ih (onProgress t k p) h2
        _ = statusAt t k := statusAt_onProgress t k p
    | completeEv tm => simp [isTerminalEv] at h
    | failEv m tm => simp [isTerminalEv] at h

theorem runTrace_append (t : JobTable) (k : String) (l1 l2 : List JobEvent) :
    runTrace t k (l1 ++ l2) = runTrace (runTrace t k l1) k l2 := by
  simp [runTrace, List.foldl_append]

/-! ## Claim C1 -/

/-- C1: for a job created by `/api/process` and any delivered event trace in
which the promise settles at most once, *every* observation point — the
creation point, every prefix of progress events, and every point after the
settlement — stores a record satisfying exactly one of: `processing` with
neither output reference nor error detail, `completed` with the output
reference and no error, `failed` with the error and no output reference
(the unconditional first conjunct, `invAt`); and whenever a terminal status
is observed after some prefix, every later observation still reports that
same status — no operation moves a job out of a terminal state (the second
conjunct). -/
theorem job_state_exclusive_and_one_way (now : Nat) (k : String)
    (pre suf : List JobEvent)
    (hc : (pre ++ suf).countP (fun e => isTerminalEv e) ≤ 1) :
    invAt (runTrace (initTable k now) k pre) k = true
    ∧ ∀ s, statusAt (runTrace (initTable k now) k pre) k = some s
        → s ≠ .processing
        → statusAt (runTrace (initTable k now) k (pre ++ suf)) k = some s := by
  constructor
  · refine invAt_runTrace pre (initTable k now) k ?_
    simp [invAt, initTable, jtGet, initJob, jobInvB]
  · intro s hs hterm
    have hpre : pre.countP (fun e => isTerminalEv e) ≠ 0 := by
      intro h0
      rw [statusAt_runTrace_noTerminal pre _ k h0] at hs
      simp [statusAt, initTable, jtGet, initJob] at hs
      exact hterm hs.symm
    have hsuf : suf.countP (fun e => isTerminalEv e) = 0 := by
      rw [List.countP_append] at hc
      omega
    rw [runTrace_append, statusAt_runTrace_noTerminal suf _ k hsuf]
    exact hs

/-- C1 witness: for the concrete trace `progress 50; complete at 7` with one
further progress event, the invariant holds at the observation point after
the settlement and the observed `completed` status persists. -/
theorem job_state_exclusive_and_one_way_witness :
    invAt (runTrace (initTable "j" 0) "j"
        [.progressEv (some 50), .completeEv 7]) "j" = true
    ∧ ∀ s, statusAt (runTrace (initTable "j" 0) "j"
          [.progressEv (some 50), .completeEv 7]) "j" = some s
        → s ≠ .processing
        → statusAt (runTrace (initTable "j" 0) "j"
            ([.progressEv (some 50), .completeEv 7] ++ [.progressEv (some 60)])) "j"
          = some s :=
  job_state_exclusive_and_one_way 0 "j"
    [.progressEv (some 50), .completeEv 7] [.progressEv (some 60)]
    (by decide)

/-! ## Claim C2 -/

/-- C2 (counterexample): in the server.js variant the `/process` response is
emitted inside `on('end')`/`on('error')`, so for one and the same
well-formed request the caller's response differs with the engine outcome —
`{success, outputId}` on completion, a 500 error on failure — and neither is
a `jobId`.  This refutes "the synchronous response value is the jobId alone
and does not depend on whether the engine later completes or fails". -/
theorem sj_response_depends_on_outcome :
    (sjProcess true true { video1 := some "a.mp4", video2 := some "b.mp4" } "out.mp4"
        (.completed 5)).1 = .ok "out.mp4"
    ∧ (sjProcess true true { video1 := some "a.mp4", video2 := some "b.mp4" } "out.mp4"
        (.failed "boom" 5)).1 = .serverError "Processing failed" "boom"
    ∧ (SJResponse.ok "out.mp4") ≠ .serverError "Processing failed" "boom" := by
  refine ⟨rfl, rfl, by decide⟩

/-- C2 (amended): in the part_000 variant the claim holds — `/api/process`
with both input ids present inserts `{status: 'processing', progress: 0,
startTime}` and responds with the `jobId` synchronously, the same response
whatever the engine outcome turns out to be; in the server.js variant the
response is deferred until the engine settles and depends on the outcome. -/
theorem create_accepts_before_completion (t : JobTable) (v1 v2 : String)
    (l : Option String) (s : Option Settings) (freshId : String) (now : Nat)
    (outcome : EngineOutcome) (h1 : v1 ≠ "") (h2 : v2 ≠ "") :
    (apiProcessRun t ⟨some v1, some v2, l, s⟩ freshId now outcome).1 = .accepted freshId
    ∧ jtGet (apiProcess t ⟨some v1, some v2, l, s⟩ freshId now).2.1 freshId
        = some (initJob now)
    ∧ (apiProcess t ⟨some v1, some v2, l, s⟩ freshId now).2.2 = true := by
  have hcond : (!jsTruthyStr (some v1) || !jsTruthyStr (some v2)) = false := by
    simp [jsTruthyStr, h1, h2]
  refine ⟨?_, ?_, ?_⟩
  · simp [apiProcessRun, apiProcess, hcond]
  · simp [apiProcess, hcond, jtGet_jtSet_self]
  · simp [apiProcess, hcond]

/-- C2 witness: a concrete accepted request, responded to with its jobId
even when the engine later fails. -/
theorem create_accepts_before_completion_witness :
    ("a.mp4" : String) ≠ "" ∧ ("b.mp4" : String) ≠ ""
    ∧ (apiProcessRun [] ⟨some "a.mp4", some "b.mp4", none, none⟩ "job1" 5
        (.failed "x" 9)).1 = .accepted "job1" :=
  ⟨by decide, by decide,
    (create_accepts_before_completion [] "a.mp4" "b.mp4" none none "job1" 5
      (.failed "x" 9) (by decide) (by decide)).1⟩

/-! ## Claim C3 -/

/-- C3: in both variants a request with an absent input identifier is
rejected synchronously with a 400 validation error before any job is
inserted or any composition launched: the part_000 handler returns
`'Missing video IDs'` with the job table unchanged and `processVideos`
never called, and the server.js handler returns `'Both video1 and video2
are required'` without launching the engine. -/
theorem missing_input_rejected_synchronously (t : JobTable) (req : ProcessRequest)
    (sreq : SJRequest) (freshId outputId : String) (now : Nat)
    (outcome : EngineOutcome) (fh1 fh2 : Bool)
    (h : req.video1Id = none ∨ req.video2Id = none)
    (hsj : sreq.video1 = none ∨ sreq.video2 = none) :
    (apiProcess t req freshId now).1 = .badRequest "Missing video IDs"
    ∧ (apiProcess t req freshId now).2.1 = t
    ∧ (apiProcess t req freshId now).2.2 = false
    ∧ (sjProcess fh1 fh2 sreq outputId outcome).1
        = .badRequest "Both video1 and video2 are required"
    ∧ (sjProcess fh1 fh2 sreq outputId outcome).2 = false := by
  have hc : (!jsTruthyStr req.video1Id || !jsTruthyStr req.video2Id) = true := by
    rcases h with h | h <;> simp [jsTruthyStr, h]
  have hcs : (!jsTruthyStr sreq.video1 || !jsTruthyStr sreq.video2) = true := by
    rcases hsj with h | h <;> simp [jsTruthyStr, h]
  refine ⟨?_, ?_, ?_, ?_, ?_⟩ <;> simp [apiProcess, sjProcess, hc, hcs]

/-- C3 witness: requests omitting `video2Id` / `video2` are rejected with
the job table unchanged. -/
theorem missing_input_rejected_synchronously_witness :
    (({ video1Id := some "a.mp4" } : ProcessRequest).video2Id = none
      ∨ (({ video1Id := some "a.mp4" } : ProcessRequest).video1Id = none))
    ∧ (apiProcess [("old", initJob 3)] { video1Id := some "a.mp4" } "fresh" 9).2.1
        = [("old", initJob 3)]
    ∧ (apiProcess [("old", initJob 3)] { video1Id := some "a.mp4" } "fresh" 9).2.2 = false :=
  ⟨Or.inl rfl,
    (missing_input_rejected_synchronously [("old", initJob 3)] { video1Id := some "a.mp4" }
      { video1 := some "a.mp4" } "fresh" "out" 9 (.completed 1) true true
      (Or.inr rfl) (Or.inr rfl)).2.1,
    (missing_input_rejected_synchronously [("old", initJob 3)] { video1Id := some "a.mp4" }
      { video1 := some "a.mp4" } "fresh" "out" 9 (.completed 1) true true
      (Or.inr rfl) (Or.inr rfl)).2.2.1⟩

/-! ## Claim C10 -/

/-- C10: each terminal transition of part_000 replaces the job record
wholesale: after completion the record holds exactly `status: 'completed'`,
`progress: 100`, the output reference and the completion timestamp (no
`startTime`, no error fields); after failure exactly `status: 'failed'`,
the error detail and the failure timestamp (no `startTime`, no `progress`,
no output fields). -/
theorem terminal_transition_replaces_record (t : JobTable) (k : String)
    (tm tf : Nat) (msg : String) :
    jtGet (onCompleted t k tm) k
      = some { status := .completed, progress := some 100, startTime := none,
               outputUrl := some ("/output/" ++ k ++ ".mp4"),
               completedTime := some tm, error := none, failedTime := none }
    ∧ jtGet (onFailed t k msg tf) k
      = some { status := .failed, progress := none, startTime := none,
               outputUrl := none, completedTime := none,
               error := some msg, failedTime := some tf } :=
  ⟨jtGet_jtSet_self t k _, jtGet_jtSet_self t k _⟩

/-! ## Claim C4 -/

/-- C4: in both variants, every layout value the variant does not recognize
(part_000 recognizes `'side by side'` and `'stacked'` after lower-casing;
server.js recognizes `'sidebyside'` and `'stacked'` exactly), including an
absent layout, yields the identical `GraphSpec` as the `"Sequential"`
layout — timeline concatenation, no scaling, no audio mixing — and the
accept path never rejects a request on account of its layout value. -/
theorem unrecognized_layout_defaults_to_sequential (layout : Option String)
    (s : Option Settings) (a : Option String) (t : JobTable)
    (v1 v2 freshId : String) (now : Nat)
    (hp : ∀ v, layout = some v → jsToLower v ≠ "side by side" ∧ jsToLower v ≠ "stacked")
    (hs : ∀ v, layout = some v → v ≠ "sidebyside" ∧ v ≠ "stacked")
    (h1 : v1 ≠ "") (h2 : v2 ≠ "") :
    processVideosFilter layout s = processVideosFilter (some "Sequential") s
    ∧ processVideosFilter layout s = sequentialSpec
    ∧ sjBuildFilter layout a = sjBuildFilter (some "Sequential") a
    ∧ sjBuildFilter layout a = sequentialSpec
    ∧ (apiProcess t ⟨some v1, some v2, layout, s⟩ freshId now).1 = .accepted freshId := by
  have hl1 : ((layout.map jsToLower).getD "") ≠ "side by side" := by
    cases layout with
    | none => decide
    | some v => simpa using (hp v rfl).1
  have hl2 : ((layout.map jsToLower).getD "") ≠ "stacked" := by
    cases layout with
    | none => decide
    | some v => simpa using (hp v rfl).2
  have hm : processVideosFilter layout s = sequentialSpec := by
    unfold processVideosFilter
    rw [if_neg hl1, if_neg hl2]
  have hj1 : layout ≠ some "sidebyside" := by
    intro hEq
    exact (hs "sidebyside" hEq).1 rfl
  have hj2 : layout ≠ some "stacked" := by
    intro hEq
    exact (hs "stacked" hEq).2 rfl
  have hm2 : sjBuildFilter layout a = sequentialSpec := by
    unfold sjBuildFilter
    rw [if_neg hj1, if_neg hj2]
  have hcond : (!jsTruthyStr (some v1) || !jsTruthyStr (some v2)) = false := by
    simp [jsTruthyStr, h1, h2]
  refine ⟨?_, hm, ?_, hm2, ?_⟩
  · rw [hm]; rfl
  · rw [hm2]; rfl
  · simp [apiProcess, hcond]

/-- C4 witness: the spec's own scenario, `layout: "diagonal"`, is treated
identically to `"Sequential"` by both builders and accepted. -/
theorem unrecognized_layout_defaults_to_sequential_witness :
    processVideosFilter (some "diagonal") none = sequentialSpec
    ∧ sjBuildFilter (some "diagonal") none = sequentialSpec
    ∧ (apiProcess [] ⟨some "a.mp4", some "b.mp4", some "diagonal", none⟩ "id1" 0).1
      = .accepted "id1" :=
  have h := unrecognized_layout_defaults_to_sequential (some "diagonal") none none []
    "a.mp4" "b.mp4" "id1" 0
    (by intro v hv; injection hv with h; subst h; exact ⟨by decide, by decide⟩)
    (by intro v hv; injection hv with h; subst h; exact ⟨by decide, by decide⟩)
    (by decide) (by decide)
  ⟨h.2.1, h.2.2.2.1, h.2.2.2.2⟩

/-! ## Claim C5 -/

/-- C5 (counterexample): the caller's audio policy never reaches the built
graph.  A server.js side-by-side request with `audioOption: "longest"`
still yields `amix=inputs=2:duration=shortest`; the same request with
`audioOption: "shortest"` yields the identical `GraphSpec`, so two requests
differing only in audio policy do not yield different mix instructions; and
a part_000 side-by-side request yields `duration=longest` whatever the
settings carry. -/
theorem audio_policy_ignored_counterexample :
    sjBuildFilter (some "sidebyside") (some "shortest")
      = sjBuildFilter (some "sidebyside") (some "longest")
    ∧ (sjBuildFilter (some "sidebyside") (some "longest")).audio = .amixShortest
    ∧ (processVideosFilter (some "side by side")
        (some { video1 := some "shortest" })).audio = .amixLongest
    ∧ AudioGraph.amixShortest ≠ .amixLongest := by decide

/-- C5 (amended): the audio-mix instruction is a fixed constant of each
variant, independent of every caller-supplied setting or audio option:
part_000 always emits `amix=inputs=2:duration=longest` for its stacking
layouts and server.js always `amix=inputs=2:duration=shortest`; two
requests differing only in the audio policy yield identical GraphSpecs. -/
theorem audio_mix_fixed_per_variant (l : Option String) (s1 s2 : Option Settings)
    (a1 a2 : Option String) :
    processVideosFilter l s1 = processVideosFilter l s2
    ∧ sjBuildFilter l a1 = sjBuildFilter l a2
    ∧ (processVideosFilter (some "side by side") s1).audio = .amixLongest
    ∧ (processVideosFilter (some "stacked") s1).audio = .amixLongest
    ∧ (sjBuildFilter (some "sidebyside") a1).audio = .amixShortest
    ∧ (sjBuildFilter (some "stacked") a1).audio = .amixShortest :=
  ⟨rfl, rfl, rfl, rfl, rfl, rfl⟩

/-! ## Claim C6 -/

/-- C6 (counterexample): in the server.js variant the side-by-side graph
scales each input relative to its *own* width (`scale=iw/2:ih`), not to a
target output width.  With a 1920×1080 first input and a 1280×1080 second
input the scaled halves are 960 and 640 pixels wide and the composed frame
is 1600×1080: the frame does not have the 1920×1080 target dimensions, the
first input does not occupy half the composed width (960 ≠ 1600/2), and the
two inputs occupy unequal shares. -/
theorem sidebyside_dims_counterexample :
    (sjBuildFilter (some "sidebyside") none).video
      = .hstack ⟨.halfInW, .fullInH⟩ ⟨.halfInW, .fullInH⟩
    ∧ composedDims (sjBuildFilter (some "sidebyside") none) ⟨1920, 1080⟩ ⟨1280, 1080⟩
      = some ⟨1600, 1080⟩
    ∧ (evalScale ⟨.halfInW, .fullInH⟩ ⟨1920, 1080⟩).w = 960
    ∧ (evalScale ⟨.halfInW, .fullInH⟩ ⟨1280, 1080⟩).w = 640
    ∧ ¬(960 = 1600 / 2)
    ∧ ¬((1600 : Nat) = targetDims.w) := by decide

/-- C6 (amended): in the part_000 variant the claim holds with the fixed
1920×1080 target: each input is scaled to 960×1080 — half the target width
at full target height — and `hstack` composes exactly the target frame for
every pair of input dimensions.  In the server.js variant each input is
scaled to half its own width at its own height, so the composed frame is
input-relative (`⟨w/2 + w/2, h⟩` for two same-sized `w×h` inputs) and
matches the target only when the inputs already have target width. -/
theorem sidebyside_frame_semantics (in1 in2 : Dims) (s : Option Settings)
    (a : Option String) :
    (processVideosFilter (some "side by side") s).video
      = .hstack ⟨.px (targetDims.w / 2), .px targetDims.h⟩
                ⟨.px (targetDims.w / 2), .px targetDims.h⟩
    ∧ composedDims (processVideosFilter (some "side by side") s) in1 in2
      = some targetDims
    ∧ evalScale ⟨.px (targetDims.w / 2), .px targetDims.h⟩ in1 = ⟨960, 1080⟩
    ∧ (sjBuildFilter (some "sidebyside") a).video
      = .hstack ⟨.halfInW, .fullInH⟩ ⟨.halfInW, .fullInH⟩
    ∧ composedDims (sjBuildFilter (some "sidebyside") a) in1 in1
      = some ⟨in1.w / 2 + in1.w / 2, in1.h⟩ := by
  refine ⟨rfl, rfl, rfl, rfl, ?_⟩
  simp [sjBuildFilter, composedDims, evalScale, evalDim]

/-! ## Claim C7 -/

theorem obsGo_progressTrace (ps : List Int) (t : JobTable) (k : String) (j : Job)
    (h : jtGet t k = some j) :
    obsGo t k (progressTrace ps) = ps := by
  induction ps generalizing t j with
  | nil => rfl
  | cons p rest ih =>
    have hstep : applyEvent t k (JobEvent.progressEv (some p))
        = jtSet t k { j with progress := some p } := by
      simp [applyEvent, onProgress, h]
    show (progressAt (applyEvent t k (.progressEv (some p))) k).getD (-1)
        :: obsGo (applyEvent t k (.progressEv (some p))) k (progressTrace rest)
      = p :: rest
    rw [hstep]
    have hpa : progressAt (jtSet t k { j with progress := some p }) k = some p := by
      simp [progressAt, jtGet_jtSet_self]
    rw [hpa, Option.getD_some]
    exact congrArg (List.cons p)
      (ih (jtSet t k { j with progress := some p }) _ (jtGet_jtSet_self t k _))

theorem observedProgress_progressTrace (k : String) (now : Nat) (ps : List Int) :
    observedProgress k now (progressTrace ps) = 0 :: ps := by
  unfold observedProgress
  have h0 : progressAt (initTable k now) k = some 0 := by
    simp [progressAt, initTable, jtGet, initJob]
  rw [h0, Option.getD_some]
  exact congrArg (List.cons 0)
    (obsGo_progressTrace ps _ k (initJob now) (by simp [initTable, jtGet]))

theorem nonDecreasing_zero_cons (ps : List Int) (hb : boundedBy100 ps = true)
    (hm : nonDecreasing ps = true) : nonDecreasing (0 :: ps) = true := by
  cases ps with
  | nil => rfl
  | cons p rest =>
    have hp : 0 ≤ p := by
      simp [boundedBy100] at hb
      exact hb.1.1
    show (decide ((0 : Int) ≤ p) && nonDecreasing (p :: rest)) = true
    simp [hm, hp]

/-- C7 (counterexample): part_000's `on('progress')` handler assigns the
delivered percent unconditionally, without clamping or a monotonicity
check.  When the engine delivers the percents `50, 30` the status poller
observes the decreasing sequence `0, 50, 30` while the job is still
`processing`, and a delivered percent of `150` is stored as a progress
value above 100. -/
theorem progress_decreases_and_escapes_bounds :
    observedProgress "j" 0 (progressTrace [50, 30]) = [0, 50, 30]
    ∧ nonDecreasing [0, 50, 30] = false
    ∧ statusAt (runTrace (initTable "j" 0) "j" (progressTrace [50, 30])) "j"
      = some .processing
    ∧ observedProgress "j" 0 (progressTrace [150]) = [0, 150]
    ∧ boundedBy100 [(0 : Int), 150] = false := by decide

/-- C7 (amended): the stored progress mirrors the delivered percents
exactly — the observed sequence is `0` followed by the delivered rounded
percents, the status stays `processing` throughout — so the observed
sequence is within `[0, 100]` and non-decreasing precisely when the
engine's delivered percents are; the orchestrator itself neither clamps
nor enforces monotonicity. -/
theorem progress_tracks_delivered_percents (k : String) (now : Nat) (ps : List Int)
    (hm : nonDecreasing ps = true) (hb : boundedBy100 ps = true) :
    observedProgress k now (progressTrace ps) = 0 :: ps
    ∧ nonDecreasing (observedProgress k now (progressTrace ps)) = true
    ∧ boundedBy100 (observedProgress k now (progressTrace ps)) = true
    ∧ statusAt (runTrace (initTable k now) k (progressTrace ps)) k
      = some .processing := by
  have heq := observedProgress_progressTrace k now ps
  refine ⟨heq, ?_, ?_, ?_⟩
  · rw [heq]
    exact nonDecreasing_zero_cons ps hb hm
  · rw [heq]
    simp [boundedBy100] at hb ⊢
    exact hb
  · have hnt : (progressTrace ps).countP (fun e => isTerminalEv e) = 0 := by
      rw [List.countP_eq_zero]
      intro e he
      simp [progressTrace] at he
      obtain ⟨p, _, rfl⟩ := he
      simp [isTerminalEv]
    rw [statusAt_runTrace_noTerminal _ _ _ hnt]
    simp [statusAt, initTable, jtGet, initJob]

/-- C7 witness: the delivered percents `20, 80` are observed as `0, 20, 80`. -/
theorem progress_tracks_delivered_percents_witness :
    nonDecreasing [(20 : Int), 80] = true
    ∧ boundedBy100 [(20 : Int), 80] = true
    ∧ observedProgress "j" 0 (progressTrace [20, 80]) = [0, 20, 80] :=
  ⟨by decide, by decide,
    (progress_tracks_delivered_percents "j" 0 [20, 80] (by decide) (by decide)).1⟩

/-! ## Claim C9 -/

/-- C9 (counterexample): the server.js `/download/:fileId` handler checks
only `fs.existsSync`: it streams the artifact for any existing output file
although no job table exists in that variant at all — here the (empty) job
table knows no job for the name, yet the bytes are streamed. -/
theorem download_streams_without_job_check :
    sjDownload [{ dir := "output", name := "x.mp4", mtimeMs := 0 }] "x.mp4"
      = .streamFile "output" "x.mp4"
    ∧ jtGet ([] : JobTable) "x.mp4" = none := by decide

/-- C9 (amended): in the part_000 variant the claim holds — `/api/download`
streams exactly when the job exists with status `completed` and the
artifact file exists, answers `'Video not ready'` whenever the job is
unknown or non-terminal-successful, and `'File not found'` when only the
file is missing; in the server.js variant the download is keyed by fileId
and streams whenever the file exists, with no job-status check. -/
theorem download_gated_by_job_state (t : JobTable) (fs : FS) (jobId fileId : String) :
    (apiDownload t fs jobId = .streamFile "output" (jobId ++ ".mp4")
      ↔ ((jtGet t jobId).map (·.status) = some .completed
          ∧ fsExists fs "output" (jobId ++ ".mp4") = true))
    ∧ ((jtGet t jobId).map (·.status) ≠ some .completed
        → apiDownload t fs jobId = .notReady)
    ∧ (sjDownload fs fileId = .streamFile "output" fileId
      ↔ fsExists fs "output" fileId = true) := by
  refine ⟨?_, ?_, ?_⟩
  · unfold apiDownload
    cases hg : jtGet t jobId with
    | none => simp
    | some job =>
      by_cases hst : job.status = Status.completed
      · by_cases hex : fsExists fs "output" (jobId ++ ".mp4") = true
        · simp [hst, hex]
        · simp [hst, hex]
      · simp [hst]
  · intro hne
    unfold apiDownload
    cases hg : jtGet t jobId with
    | none => rfl
    | some job =>
      rw [hg] at hne
      have hst : job.status ≠ Status.completed := by
        intro h
        exact hne (by simp [h])
      simp [hst]
  · unfold sjDownload
    by_cases hex : fsExists fs "output" fileId = true <;> simp [hex]

/-- C9 witness: a completed job with its artifact on disk is streamed. -/
theorem download_gated_by_job_state_witness :
    apiDownload [("j", { status := .completed, outputUrl := some "/output/j.mp4" })]
        [{ dir := "output", name := "j.mp4", mtimeMs := 5 }] "j"
      = .streamFile "output" ("j" ++ ".mp4") :=
  (download_gated_by_job_state
      [("j", { status := .completed, outputUrl := some "/output/j.mp4" })]
      [{ dir := "output", name := "j.mp4", mtimeMs := 5 }] "j" "f").1.mpr (by decide)

/-! ## Claim C8 -/

/-- No transient fault is set anywhere on the filesystem. -/
def fsClean (fs : FS) : Bool :=
  fs.all (fun f => !f.statErr && !f.unlinkErr)

/-- The `(dir, name)` paths of the filesystem, for uniqueness statements. -/
def pathsOf (fs : FS) : List (String × String) :=
  fs.map (fun f => (f.dir, f.name))

theorem fsExists_iff (fs : FS) (d n : String) :
    fsExists fs d n = true ↔ ∃ f ∈ fs, f.dir = d ∧ f.name = n := by
  simp [fsExists, fsLookup, List.find?_isSome]

theorem fsClean_filter (fs : FS) (p : FSFile → Bool) (h : fsClean fs = true) :
    fsClean (fs.filter p) = true := by
  rw [fsClean, List.all_eq_true] at h ⊢
  intro f hf
  exact h f (List.mem_filter.mp hf).1

theorem nodupPaths_filter (fs : FS) (p : FSFile → Bool) (h : (pathsOf fs).Nodup) :
    (pathsOf (fs.filter p)).Nodup :=
  List.Nodup.sublist ((List.filter_sublist fs).map _) h

theorem fsStat_ok (fs : FS) (d n : String) (hex : fsExists fs d n = true)
    (hc : fsClean fs = true) : ∃ f, fsStat fs d n = .ok f := by
  unfold fsStat
  cases hl : fsLookup fs d n with
  | none =>
    unfold fsExists at hex
    rw [hl] at hex
    simp at hex
  | some f =>
    have hf : f ∈ fs := List.mem_of_find?_eq_some hl
    have hcf := List.all_eq_true.mp hc f hf
    simp at hcf
    exact ⟨f, by simp [hcf.1]⟩

theorem fsUnlink_ok (fs : FS) (d n : String) (hex : fsExists fs d n = true)
    (hc : fsClean fs = true) :
    fsUnlink fs d n = .ok (fs.filter (fun g => !(g.dir == d && g.name == n))) := by
  unfold fsUnlink
  cases hl : fsLookup fs d n with
  | none =>
    unfold fsExists at hex
    rw [hl] at hex
    simp at hex
  | some f =>
    have hf : f ∈ fs := List.mem_of_find?_eq_some hl
    have hcf := List.all_eq_true.mp hc f hf
    simp at hcf
    simp [hcf.2]

theorem sweepJob_no_error (now maxAge : Nat) (jt : JobTable) (fs : FS) (k : String)
    (j : Job) (hc : fsClean fs = true) (hn : (pathsOf fs).Nodup) :
    (sweepJob now maxAge jt fs k j).2.2 = none
    ∧ fsClean (sweepJob now maxAge jt fs k j).2.1 = true
    ∧ (pathsOf (sweepJob now maxAge jt fs k j).2.1).Nodup := by
  cases htr : timeRef j with
  | none =>
    simp only [sweepJob, htr]
    exact ⟨by trivial, hc, hn⟩
  | some tr =>
    simp only [sweepJob, htr]
    by_cases hage : (maxAge : Int) < (now : Int) - (tr : Int)
    · rw [if_pos hage]
      by_cases hex : fsExists fs "output" (k ++ ".mp4") = true
      · rw [if_pos hex, fsUnlink_ok fs _ _ hex hc]
        exact ⟨by trivial, fsClean_filter _ _ hc, nodupPaths_filter _ _ hn⟩
      · rw [if_neg hex]
        exact ⟨by trivial, hc, hn⟩
    · rw [if_neg hage]
      exact ⟨by trivial, hc, hn⟩

theorem sweepJobsGo_ok (now maxAge : Nat) (entries : List (String × Job))
    (jt : JobTable) (fs : FS) (hc : fsClean fs = true) (hn : (pathsOf fs).Nodup) :
    ∃ jt2 fs2, sweepJobsGo now maxAge entries jt fs = .ok jt2 fs2
      ∧ fsClean fs2 = true ∧ (pathsOf fs2).Nodup := by
  induction entries generalizing jt fs with
  | nil => exact ⟨jt, fs, rfl, hc, hn⟩
  | cons e rest ih =>
    obtain ⟨k, j⟩ := e
    obtain ⟨h1, h2, h3⟩ := sweepJob_no_error now maxAge jt fs k j hc hn
    rcases hE : sweepJob now maxAge jt fs k j with ⟨jt2, fs2, err⟩
    rw [hE] at h1 h2 h3
    have h1e : err = none := h1
    subst h1e
    have hstep : sweepJobsGo now maxAge ((k, j) :: rest) jt fs
        = sweepJobsGo now maxAge rest jt2 fs2 := by
      simp only [sweepJobsGo, hE]
    rw [hstep]
    exact ih jt2 fs2 h2 h3

theorem sweepFile_no_error (now maxAge : Nat) (fs : FS) (d n : String)
    (hex : fsExists fs d n = true) (hc : fsClean fs = true)
    (hn : (pathsOf fs).Nodup) :
    (sweepFile now maxAge fs d n).2 = none
    ∧ fsClean (sweepFile now maxAge fs d n).1 = true
    ∧ (pathsOf (sweepFile now maxAge fs d n).1).Nodup
    ∧ ∀ n2, n2 ≠ n → fsExists fs d n2 = true
        → fsExists (sweepFile now maxAge fs d n).1 d n2 = true := by
  obtain ⟨f, hstat⟩ := fsStat_ok fs d n hex hc
  simp only [sweepFile, hstat]
  by_cases hage : (maxAge : Int) < (now : Int) - (f.mtimeMs : Int)
  · rw [if_pos hage, fsUnlink_ok fs d n hex hc]
    refine ⟨rfl, fsClean_filter _ _ hc, nodupPaths_filter _ _ hn, ?_⟩
    intro n2 hne hex2
    rw [fsExists_iff] at hex2 ⊢
    obtain ⟨g, hg, hgd, hgn⟩ := hex2
    refine ⟨g, ?_, hgd, hgn⟩
    rw [List.mem_filter]
    refine ⟨hg, ?_⟩
    simp [hgn, hne]
  · rw [if_neg hage]
    exact ⟨rfl, hc, hn, fun n2 _ h => h⟩

theorem readdir_mem (fs : FS) (d : String) :
    ∀ n ∈ readdir fs d, fsExists fs d n = true := by
  intro n hn
  simp [readdir, List.mem_filter] at hn
  obtain ⟨f, ⟨hf, hfd⟩, hfn⟩ := hn
  rw [fsExists_iff]
  exact ⟨f, hf, hfd, hfn⟩

theorem readdir_nodup (fs : FS) (d : String) (hn : (pathsOf fs).Nodup) :
    (readdir fs d).Nodup := by
  induction fs with
  | nil => exact List.nodup_nil
  | cons f rest ih =>
    have hn2 : (pathsOf rest).Nodup := (List.nodup_cons.mp hn).2
    have hhead : (f.dir, f.name) ∉ pathsOf rest := (List.nodup_cons.mp hn).1
    by_cases hd : f.dir == d
    · have hstep : readdir (f :: rest) d = f.name :: readdir rest d := by
        simp [readdir, hd]
      rw [hstep, List.nodup_cons]
      refine ⟨?_, ih hn2⟩
      intro hmem
      simp [readdir, List.mem_filter] at hmem
      obtain ⟨g, ⟨hg, hgd⟩, hgn⟩ := hmem
      apply hhead
      have hfd : f.dir = d := by simpa using hd
      have heq : (f.dir, f.name) = (g.dir, g.name) := by
        rw [hfd, hgd, hgn]
      rw [heq]
      exact List.mem_map_of_mem _ hg
    · have hstep : readdir (f :: rest) d = readdir rest d := by
        simp [readdir, hd]
      rw [hstep]
      exact ih hn2

theorem sweepDirGo_ok (now maxAge : Nat) (d : String) (names : List String) (fs : FS)
    (hc : fsClean fs = true) (hn : (pathsOf fs).Nodup)
    (hmem : ∀ n ∈ names, fsExists fs d n = true) (hnd : names.Nodup) :
    (sweepDirGo now maxAge d names fs).2 = none
    ∧ fsClean (sweepDirGo now maxAge d names fs).1 = true
    ∧ (pathsOf (sweepDirGo now maxAge d names fs).1).Nodup := by
  induction names generalizing fs with
  | nil => exact ⟨rfl, hc, hn⟩
  | cons n rest ih =>
    obtain ⟨h1, h2, h3, h4⟩ := sweepFile_no_error now maxAge fs d n
      (hmem n (List.mem_cons_self n rest)) hc hn
    rcases hE : sweepFile now maxAge fs d n with ⟨fs2, err⟩
    rw [hE] at h1 h2 h3 h4
    have h1e : err = none := h1
    subst h1e
    have hstep : sweepDirGo now maxAge d (n :: rest) fs
        = sweepDirGo now maxAge d rest fs2 := by
      simp only [sweepDirGo, hE]
    rw [hstep]
    refine ih fs2 h2 h3 ?_ (List.Nodup.of_cons hnd)
    intro n2 hn2
    refine h4 n2 ?_ (hmem n2 (List.mem_cons_of_mem n hn2))
    intro hEq
    exact (List.nodup_cons.mp hnd).1 (hEq ▸ hn2)

theorem sweepDirsGo_ok (now maxAge : Nat) (dirs : List String) (fs : FS)
    (hc : fsClean fs = true) (hn : (pathsOf fs).Nodup) :
    (sweepDirsGo now maxAge dirs fs).2 = none
    ∧ fsClean (sweepDirsGo now maxAge dirs fs).1 = true
    ∧ (pathsOf (sweepDirsGo now maxAge dirs fs).1).Nodup := by
  induction dirs generalizing fs with
  | nil => exact ⟨rfl, hc, hn⟩
  | cons d rest ih =>
    obtain ⟨h1, h2, h3⟩ := sweepDirGo_ok now maxAge d (readdir fs d) fs hc hn
      (readdir_mem fs d) (readdir_nodup fs d hn)
    rcases hE : sweepDirGo now maxAge d (readdir fs d) fs with ⟨fs2, err⟩
    rw [hE] at h1 h2 h3
    have h1e : err = none := h1
    subst h1e
    have hstep : sweepDirsGo now maxAge (d :: rest) fs
        = sweepDirsGo now maxAge rest fs2 := by
      simp only [sweepDirsGo, hE]
    rw [hstep]
    exact ih fs2 h2 h3

/-- C8 (counterexample): the sweep's `statSync`/`unlinkSync` calls are not
wrapped in try/catch.  With two stale files under `uploads`, the first of
which raises a transient filesystem error on `statSync`, the exception
propagates and aborts the sweep: the second file is older than the
retention window and still exists afterwards, so the sweep neither ran to
completion nor skipped the faulty file. -/
theorem sweep_aborts_on_fs_error :
    sweep 1000000000 86400000 []
        [{ dir := "uploads", name := "a.mp4", mtimeMs := 0, statErr := true },
         { dir := "uploads", name := "b.mp4", mtimeMs := 0 }]
      = .aborted "EIO" []
          [{ dir := "uploads", name := "a.mp4", mtimeMs := 0, statErr := true },
           { dir := "uploads", name := "b.mp4", mtimeMs := 0 }]
    ∧ ((86400000 : Int) < 1000000000 - 0)
    ∧ fsExists
        [{ dir := "uploads", name := "a.mp4", mtimeMs := 0, statErr := true },
         { dir := "uploads", name := "b.mp4", mtimeMs := 0 }] "uploads" "b.mp4"
      = true := by decide

/-- C8 (amended): the sweep is best-effort only in the absence of
filesystem faults: a file already missing at artifact-deletion time is
skipped via the `existsSync` pre-check, and when no `statSync`/`unlinkSync`
call faults the sweep runs to completion over all jobs and both
directories; but any filesystem error raised while inspecting or deleting
a file propagates uncaught and aborts the remainder of the sweep. -/
theorem sweep_completes_without_fs_faults (now maxAge : Nat) (jt : JobTable) (fs : FS)
    (hc : fsClean fs = true) (hn : (pathsOf fs).Nodup) :
    ∃ jt2 fs2, sweep now maxAge jt fs = .ok jt2 fs2 := by
  obtain ⟨jt2, fs2, hrun, hc2, hn2⟩ := sweepJobsGo_ok now maxAge jt jt fs hc hn
  obtain ⟨h1, _, _⟩ := sweepDirsGo_ok now maxAge ["uploads", "output"] fs2 hc2 hn2
  rcases hE : sweepDirsGo now maxAge ["uploads", "output"] fs2 with ⟨fs3, err⟩
  rw [hE] at h1
  have h1e : err = none := h1
  subst h1e
  refine ⟨jt2, fs3, ?_⟩
  simp only [sweep, hrun, hE]

/-- C8 witness: a fault-free filesystem with one stale upload and one stale
job is swept to completion. -/
theorem sweep_completes_without_fs_faults_witness :
    fsClean [{ dir := "uploads", name := "a.mp4", mtimeMs := 0 }] = true
    ∧ (pathsOf [{ dir := "uploads", name := "a.mp4", mtimeMs := 0 }]).Nodup
    ∧ ∃ jt2 fs2, sweep 1000000000 86400000 [("j", initJob 0)]
        [{ dir := "uploads", name := "a.mp4", mtimeMs := 0 }] = .ok jt2 fs2 :=
  ⟨by decide, by decide,
    sweep_completes_without_fs_faults 1000000000 86400000 [("j", initJob 0)]
      [{ dir := "uploads", name := "a.mp4", mtimeMs := 0 }] (by decide) (by decide)⟩

end VideoEditorPro
